import Mathlib

/-!
Verification of the file-structure agent (`file_agent.py`).

The development shallowly embeds the traversal, rendering, summarising,
digest, persistence and remote-analysis logic of `FileStructureAgent`.
The filesystem seen by the program is modelled by the inductive `Entry`
(a directory may deny listing, which in the source raises
`PermissionError` inside `os.listdir`); paths handed to the agent are
taken to be absolute, so `os.path.abspath` is the identity on them.
-/

namespace FileAgent

/-- A filesystem entry as the OS exposes it to the agent: a regular file
with a byte size, or a directory with its (unsorted) listing; `denied`
marks a directory whose `os.listdir` raises `PermissionError`. -/
inductive Entry : Type where
  | file (name : String) (size : Nat)
  | dir (name : String) (denied : Bool) (children : List Entry)

/-- The entry's own name (the last path component `os.listdir` reports). -/
def Entry.name : Entry → String
  | .file n _ => n
  | .dir n _ _ => n

/-- Models `os.path.isdir` on the entry's path. -/
def Entry.isDir : Entry → Bool
  | .dir _ _ _ => true
  | .file _ _ => false

/-- Models `os.path.isfile` on the entry's path. -/
def Entry.isFile : Entry → Bool
  | .file _ _ => true
  | .dir _ _ _ => false

/-- Python's `<=` on `str` is lexicographic comparison of code points;
`String.data` lists the code points, compared with Mathlib's
lexicographic order on `List Char`. -/
def nameLe (a b : Entry) : Prop := a.name.data ≤ b.name.data

instance : DecidableRel nameLe := fun a b =>
  (inferInstance : Decidable (a.name.data ≤ b.name.data))

instance : IsTotal Entry nameLe := ⟨fun a b => le_total a.name.data b.name.data⟩

instance : IsTrans Entry nameLe := ⟨fun _ _ _ h1 h2 => le_trans h1 h2⟩

/-- Models `sorted(items)` over one directory listing: a stable ascending
sort of the entries by name. -/
def sortByName (l : List Entry) : List Entry := List.insertionSort nameLe l

mutual

/-- Nesting depth of an entry: 0 for a file, one more than the deepest
child for a directory. Used as recursion fuel for the filesystem walks;
every walk below is run with fuel at least the depth of its argument, so
the fuel never runs out. -/
def Entry.depth : Entry → Nat
  | .file _ _ => 0
  | .dir _ _ cs => Entry.depthList cs + 1

def Entry.depthList : List Entry → Nat
  | [] => 0
  | c :: cs => max (Entry.depth c) (Entry.depthList cs)

end

/-- In-memory tree node built by `get_folder_structure`: the Python dicts
`{"name", "type": "folder", "path", "children"}` and
`{"name", "type": "file", "path", "size"}`. -/
inductive Node : Type where
  | folder (name path : String) (children : List Node)
  | file (name path : String) (size : Nat)

def Node.name : Node → String
  | .folder n _ _ => n
  | .file n _ _ => n

def Node.children : Node → List Node
  | .folder _ _ cs => cs
  | .file _ _ _ => []

def Node.isFolderB : Node → Bool
  | .folder _ _ _ => true
  | .file _ _ _ => false

/-- Warning printed by `get_folder_structure` on `PermissionError`. -/
def permWarn (p : String) : String := "⚠️ 没有权限访问: " ++ p

/-- Warning printed by `get_folder_structure`'s generic handler when
`os.listdir` is applied to a regular file (`NotADirectoryError`). -/
def notDirWarn (p : String) : String :=
  "❌ 扫描出错: [Errno 20] Not a directory: '" ++ p ++ "'"

/-- The recursive body of `FileStructureAgent.get_folder_structure`,
run on the entry at path `p` (which is known to exist). Returns the
built node together with the warnings printed, in print order. The
first argument is recursion fuel (see `Entry.depth`); the branches
mirror the source: a regular file makes `os.listdir` raise
`NotADirectoryError` (caught by the generic handler), a denied
directory raises `PermissionError` before any child is enumerated, and
otherwise each entry of the sorted listing is recursed into when it is
a directory and recorded as a file node otherwise. -/
def scanFuel : Nat → String → Entry → Node × List String
  | _, p, .file n _ => (.folder n p [], [notDirWarn p])
  | _, p, .dir n true _ => (.folder n p [], [permWarn p])
  | 0, p, .dir n _ _ => (.folder n p [], [])
  | fuel + 1, p, .dir n _ cs =>
      let results := (sortByName cs).map fun c =>
        match c with
        | .file cn sz => (Node.file cn (p ++ "/" ++ cn) sz, ([] : List String))
        | .dir cn cd ccs => scanFuel fuel (p ++ "/" ++ cn) (.dir cn cd ccs)
      (Node.folder n p (results.map Prod.fst), (results.map Prod.snd).flatten)

/-- `FileStructureAgent.get_folder_structure(folder_path)`. The second
argument is the filesystem's answer for `folder_path`: `none` when
`os.path.exists` is false (the source then raises `FileNotFoundError`
before walking or printing anything), otherwise the entry found there.
The result is the built tree and the warnings printed. -/
def get_folder_structure (folder_path : String) (fs : Option Entry) :
    Except String (Node × List String) :=
  match fs with
  | none => .error ("路径不存在: " ++ folder_path)
  | some e => .ok (scanFuel (Entry.depth e) folder_path e)

/-! ### Size formatter -/

def size_names : List String := ["B", "KB", "MB", "GB"]

/-- Fixed-point rendering with one decimal place of the exact value
`num / den` (`den > 0`), rounding half to even: CPython's `f"{x:.1f}"`
on the float `x`. All floats the source formats arise from a `Nat`
below `2 ^ 53` divided by a power of 1024, so the float equals this
rational exactly and the formatting agrees. -/
def formatFix1 (num den : Nat) : String :=
  let t := 10 * num
  let q := t / den
  let r := t % den
  let m :=
    if 2 * r < den then q
    else if den < 2 * r then q + 1
    else if q % 2 = 0 then q else q + 1
  toString (m / 10) ++ "." ++ toString (m % 10)

/-- The `while size_bytes >= 1024 and i < len(size_names) - 1` loop of
`_format_size`. The running float is exactly `size_bytes / 1024 ^ i`,
so the loop guard `size_bytes >= 1024` is `1024 ^ (i + 1) ≤ size_bytes`;
only the final unit index matters. The fuel is `len(size_names) - 1`,
an upper bound on the number of iterations, so it never runs out. -/
def format_size_loop (size_bytes : Nat) : Nat → Nat → Nat
  | 0, i => i
  | fuel + 1, i =>
      if 1024 ^ (i + 1) ≤ size_bytes ∧ i < size_names.length - 1 then
        format_size_loop size_bytes fuel (i + 1)
      else i

/-- `FileStructureAgent._format_size(size_bytes)`. -/
def format_size (size_bytes : Nat) : String :=
  if size_bytes = 0 then "0 B"
  else
    let i := format_size_loop size_bytes (size_names.length - 1) 0
    formatFix1 size_bytes (1024 ^ i) ++ " " ++ size_names.getD i ""

/-! ### Tree renderer (`_print_tree`) -/

/-- The recursive body of `FileStructureAgent._print_tree(path, prefix,
show_size)`, as the list of lines it prints. Arguments: fuel (see
`Entry.depth`), the path being listed, the accumulated prefix, and the
entry at that path. A regular file at the path makes `os.listdir` raise
`NotADirectoryError` (generic error leaf); a denied directory raises
`PermissionError` (locked leaf). Otherwise the sorted listing is split
into the entries that are directories and the entries that are files,
directories printed first, with `└── ` on the last sibling and `├── `
on the rest, and the prefix grown by four spaces under a last sibling
and by `│   ` otherwise. -/
def print_tree_fuel (show_size : Bool) : Nat → String → String → Entry → List String
  | _, path, pre, .file _ _ =>
      [pre ++ "└── ❌ [错误: [Errno 20] Not a directory: '" ++ path ++ "']"]
  | _, _, pre, .dir _ true _ => [pre ++ "└── 🔒 [权限拒绝]"]
  | 0, _, _, .dir _ false _ => []
  | fuel + 1, path, pre, .dir _ false children =>
      let items := sortByName children
      let folders := items.filter Entry.isDir
      let files := items.filter Entry.isFile
      let all := folders ++ files
      let total := all.length
      (all.enum.map fun ia =>
        match ia with
        | (i, .dir dn dd dcs) =>
            (pre ++ (if i = total - 1 then "└── " else "├── ") ++ "📁 " ++ dn ++ "/") ::
              print_tree_fuel show_size fuel (path ++ "/" ++ dn)
                (pre ++ (if i = total - 1 then "    " else "│   ")) (.dir dn dd dcs)
        | (i, .file fn sz) =>
            [pre ++ (if i = total - 1 then "└── " else "├── ") ++ "📄 " ++ fn ++
              (if show_size then " (" ++ format_size sz ++ ")" else "")]).flatten

/-- `_print_tree` run with enough fuel for its argument. -/
def print_tree (show_size : Bool) (path pre : String) (e : Entry) : List String :=
  print_tree_fuel show_size (Entry.depth e) path pre e

/-- The renderer as §4.3 of the specification words it: partition the
directory's entries into a folders-subset and a files-subset, each
independently sorted ascending by name, print all folders before all
files, with the same connectors and prefix growth as the source. -/
def render_spec_fuel (show_size : Bool) : Nat → String → String → Entry → List String
  | _, path, pre, .file _ _ =>
      [pre ++ "└── ❌ [错误: [Errno 20] Not a directory: '" ++ path ++ "']"]
  | _, _, pre, .dir _ true _ => [pre ++ "└── 🔒 [权限拒绝]"]
  | 0, _, _, .dir _ false _ => []
  | fuel + 1, path, pre, .dir _ false children =>
      let folders := sortByName (children.filter Entry.isDir)
      let files := sortByName (children.filter Entry.isFile)
      let all := folders ++ files
      let total := all.length
      (all.enum.map fun ia =>
        match ia with
        | (i, .dir dn dd dcs) =>
            (pre ++ (if i = total - 1 then "└── " else "├── ") ++ "📁 " ++ dn ++ "/") ::
              render_spec_fuel show_size fuel (path ++ "/" ++ dn)
                (pre ++ (if i = total - 1 then "    " else "│   ")) (.dir dn dd dcs)
        | (i, .file fn sz) =>
            [pre ++ (if i = total - 1 then "└── " else "├── ") ++ "📄 " ++ fn ++
              (if show_size then " (" ++ format_size sz ++ ")" else "")]).flatten

/-! ### Text digest builder (`_structure_to_text`) -/

/-- Python's `s * n` on strings: `n` copies of `s` concatenated. -/
def strTimes (n : Nat) (s : String) : String := String.join (List.replicate n s)

mutual

/-- `FileStructureAgent._structure_to_text(structure, level, max_depth)`:
when `level > max_depth` a single truncation marker line at the current
indent; otherwise the node's own line followed, for a folder, by the
text of each child at `level + 1`. -/
def structure_to_text : Node → Nat → Nat → String
  | s, level, max_depth =>
    if level > max_depth then strTimes level "  " ++ "...\n"
    else
      match s with
      | .folder name _ children =>
          strTimes level "  " ++ "📁 " ++ name ++ "/\n" ++
            children_to_text children (level + 1) max_depth
      | .file name _ size =>
          strTimes level "  " ++ "📄 " ++ name ++ " (" ++ format_size size ++ ")\n"

/-- The `for child in structure["children"]` accumulation inside
`_structure_to_text`. -/
def children_to_text : List Node → Nat → Nat → String
  | [], _, _ => ""
  | c :: cs, level, max_depth =>
      structure_to_text c level max_depth ++ children_to_text cs level max_depth

end

/-! ### Structure summarizer (`get_structure_summary.count_items`) -/

mutual

/-- The nested helper `count_items(struct)` of
`FileStructureAgent.get_structure_summary`: `(folders, files, total_size)`.
A folder contributes 1 to the folder count and then accumulates over its
children; a non-folder argument contributes nothing. -/
def count_items : Node → Nat × Nat × Nat
  | .file _ _ _ => (0, 0, 0)
  | .folder _ _ children => count_loop children (1, 0, 0)

/-- The `for child in struct["children"]` accumulation inside
`count_items`. -/
def count_loop : List Node → Nat × Nat × Nat → Nat × Nat × Nat
  | [], acc => acc
  | child :: rest, acc =>
      match child with
      | .folder _ _ _ =>
          let r := count_items child
          count_loop rest (acc.1 + r.1, acc.2.1 + r.2.1, acc.2.2 + r.2.2)
      | .file _ _ sz => count_loop rest (acc.1, acc.2.1 + 1, acc.2.2 + sz)

end

mutual

/-- Specification-side count: the number of folder nodes in the tree
(the root folder itself counts as one, every descendant folder adds one). -/
def nFolders : Node → Nat
  | .file _ _ _ => 0
  | .folder _ _ cs => 1 + nFoldersList cs

def nFoldersList : List Node → Nat
  | [] => 0
  | c :: cs => nFolders c + nFoldersList cs

end

mutual

/-- Specification-side count: the number of file nodes in the tree. -/
def nFiles : Node → Nat
  | .file _ _ _ => 1
  | .folder _ _ cs => nFilesList cs

def nFilesList : List Node → Nat
  | [] => 0
  | c :: cs => nFiles c + nFilesList cs

end

mutual

/-- Specification-side count: the total size of the file nodes in the tree. -/
def nBytes : Node → Nat
  | .file _ _ sz => sz
  | .folder _ _ cs => nBytesList cs

def nBytesList : List Node → Nat
  | [] => 0
  | c :: cs => nBytes c + nBytesList cs

end

/-! ### Persistence writer (`save_structure_to_json`)

`save_structure_to_json` hands the structure dict to
`json.dump(structure, f, indent=2, ensure_ascii=False)`; the round-trip
claim reads the written document back with `json.load`. The text
encoding and decoding are the Python `json` standard library (an
external collaborator); what belongs to this program is the shape of
the document, modelled by `Json`, the encoding of the built tree into
it (`nodeToJson` — exactly the dict `get_folder_structure` builds, in
insertion order of the keys), and the reading of names, type tags,
paths, sizes and children back out of the parsed document
(`jsonToNode`). -/

/-- A JSON document (the fragment the agent produces: strings, natural
numbers, arrays, and objects with ordered fields). -/
inductive Json : Type where
  | str (s : String)
  | num (n : Nat)
  | arr (elems : List Json)
  | obj (fields : List (String × Json))

mutual

/-- The structure dict built by `get_folder_structure`, as the JSON
document `json.dump` serializes (keys in insertion order). -/
def nodeToJson : Node → Json
  | .folder name path cs =>
      .obj [("name", .str name), ("type", .str "folder"), ("path", .str path),
            ("children", .arr (nodesToJson cs))]
  | .file name path size =>
      .obj [("name", .str name), ("type", .str "file"), ("path", .str path),
            ("size", .num size)]

def nodesToJson : List Node → List Json
  | [] => []
  | c :: cs => nodeToJson c :: nodesToJson cs

end

mutual

/-- Reading a scanned-structure document back (`json.load` followed by
interpreting the fields): the names, type tags, paths, sizes and the
ordered children recovered from the parsed document, `none` on any
shape mismatch. -/
def jsonToNode : Json → Option Node
  | .obj [("name", .str name), ("type", .str "folder"), ("path", .str path),
          ("children", .arr elems)] =>
      match jsonToNodeList elems with
      | some cs => some (.folder name path cs)
      | none => none
  | .obj [("name", .str name), ("type", .str "file"), ("path", .str path),
          ("size", .num size)] =>
      some (.file name path size)
  | _ => none

def jsonToNodeList : List Json → Option (List Node)
  | [] => some []
  | j :: js =>
      match jsonToNode j, jsonToNodeList js with
      | some c, some cs => some (c :: cs)
      | _, _ => none

end

/-! ### Remote analysis client (`analyze_with_ai`)

The single blocking `requests.post` call is an external collaborator;
its outcome is modelled by `PostOutcome`: the call raised a
`RequestException` (connection failure or the 60-second timeout), or it
returned a response with a status code and a body (`none` for a body
`response.json()` cannot decode — `requests`' `JSONDecodeError` is a
`RequestException`). Everything after the call is the program's own
code and is embedded: `raise_for_status`, the
`result["choices"][0]["message"]["content"]` extraction, and the two
`except` handlers that turn any of these failures into a formatted
error string returned as the answer. -/

inductive PostOutcome : Type where
  | requestError (msg : String)
  | response (status : Nat) (body : Option Json)

/-- A Python exception as the two `except` clauses of `analyze_with_ai`
classify it: a `requests.exceptions.RequestException`, or any other
exception. -/
inductive PyExc : Type where
  | requestExc (msg : String)
  | genericExc (msg : String)

/-- Ordered-dict lookup used by JSON-object subscripting. -/
def lookupKey : List (String × Json) → String → Option Json
  | [], _ => none
  | (k, v) :: rest, key => if k = key then some v else lookupKey rest key

/-- Python `j[key]` on a parsed JSON value: a missing key raises
`KeyError`, a non-object raises `TypeError`. -/
def subscriptKey (j : Json) (key : String) : Except PyExc Json :=
  match j with
  | .obj fields =>
      match lookupKey fields key with
      | some v => .ok v
      | none => .error (.genericExc ("KeyError: '" ++ key ++ "'"))
  | _ => .error (.genericExc ("TypeError: value is not subscriptable by '" ++ key ++ "'"))

/-- Python `j[0]` on a parsed JSON value: an empty list raises
`IndexError`, an object raises `KeyError`, anything else `TypeError`. -/
def subscriptZero (j : Json) : Except PyExc Json :=
  match j with
  | .arr (v :: _) => .ok v
  | .arr [] => .error (.genericExc "IndexError: list index out of range")
  | .obj _ => .error (.genericExc "KeyError: 0")
  | _ => .error (.genericExc "TypeError: value is not subscriptable by 0")

/-- The extraction `result["choices"][0]["message"]["content"]`. -/
def extract_answer (result : Json) : Except PyExc Json := do
  let choices ← subscriptKey result "choices"
  let first ← subscriptZero choices
  let message ← subscriptKey first "message"
  subscriptKey message "content"

/-- The body of `analyze_with_ai`'s `try` block after the prompt is
built: `requests.post` outcome, then `response.raise_for_status()`
(raises `HTTPError`, a `RequestException`, for status 400–599), then
`response.json()`, then the answer extraction. -/
def analyze_request (r : PostOutcome) : Except PyExc Json :=
  match r with
  | .requestError m => .error (.requestExc m)
  | .response status body =>
      if 400 ≤ status ∧ status < 600 then
        .error (.requestExc ("HTTPError: " ++ toString status))
      else
        match body with
        | none => .error (.requestExc "JSONDecodeError")
        | some j => extract_answer j

/-- `FileStructureAgent.analyze_with_ai`, from the point the request is
issued: the `try` body's answer on success, and the two `except`
handlers' formatted error strings otherwise. Total — no exception
escapes this boundary. -/
def analyze_with_ai (r : PostOutcome) : Json :=
  match analyze_request r with
  | .ok answer => answer
  | .error (.requestExc m) => .str ("❌ API调用失败: " ++ m)
  | .error (.genericExc m) => .str ("❌ 处理响应时出错: " ++ m)

/-! ### Observation helpers and invariants used by the statements -/

/-- Split a character stream at newlines (the lines of an emitted text
block, `splitlines`-style with a trailing fragment). -/
def splitLinesAux : List Char → List Char → List (List Char)
  | [], acc => [acc.reverse]
  | c :: cs, acc =>
      if c = '\n' then acc.reverse :: splitLinesAux cs []
      else splitLinesAux cs (c :: acc)

/-- The lines of an emitted text block. -/
def textLines (s : String) : List String := (splitLinesAux s.data []).map String.mk

/-- Whether a line is a truncation marker: `"..."` at some indent. -/
def isMarkerLine (l : String) : Bool := l.data.dropWhile (· = ' ') == ['.', '.', '.']

/-- The number of immediate child folders of a node. -/
def childFolderCount (n : Node) : Nat := n.children.countP Node.isFolderB

/-- The scan of one entry of a directory listing, exactly as the loop
body of `get_folder_structure` treats it when scanned independently: a
file becomes a file node, a directory is scanned recursively with full
fuel. -/
def scanChild (p : String) (c : Entry) : Node × List String :=
  match c with
  | .file cn sz => (Node.file cn (p ++ "/" ++ cn) sz, ([] : List String))
  | .dir cn cd ccs =>
      scanFuel (Entry.depth (.dir cn cd ccs)) (p ++ "/" ++ cn) (.dir cn cd ccs)

/-- Name order on built nodes (Python's `str` order on the names). -/
def nodeNameLe (a b : Node) : Prop := a.name.data ≤ b.name.data

/-- Every level of the node tree lists its children in ascending name
order (files and folders mixed in the one order). -/
inductive SortedTree : Node → Prop where
  | file : ∀ n p s, SortedTree (.file n p s)
  | folder : ∀ n p cs, List.Pairwise nodeNameLe cs →
      (∀ c ∈ cs, SortedTree c) → SortedTree (.folder n p cs)

/-- A filesystem region with no repeated name inside any one directory
listing — what a real filesystem guarantees. -/
inductive EntryWF : Entry → Prop where
  | file : ∀ n s, EntryWF (.file n s)
  | dir : ∀ n d cs, (cs.map Entry.name).Nodup →
      (∀ c ∈ cs, EntryWF c) → EntryWF (.dir n d cs)

/-! ### Lemmas about the sorted listing -/

theorem perm_sortByName (l : List Entry) : List.Perm (sortByName l) l :=
  List.perm_insertionSort nameLe l

theorem mem_sortByName {a : Entry} {l : List Entry} :
    a ∈ sortByName l ↔ a ∈ l :=
  (perm_sortByName l).mem_iff

theorem pairwise_sortByName (l : List Entry) :
    List.Pairwise nameLe (sortByName l) :=
  List.sorted_insertionSort nameLe l

theorem stringDataInj {a b : String} (h : a.data = b.data) : a = b := by
  cases a
  cases b
  exact congrArg String.mk h

/-- Two sorted entry lists that are permutations of one another and have
no repeated name are equal (name order is antisymmetric once names are
distinct). -/
theorem eq_of_perm_of_pairwise_nameLe :
    ∀ {l₁ l₂ : List Entry}, List.Perm l₁ l₂ → List.Pairwise nameLe l₁ →
      List.Pairwise nameLe l₂ → (l₁.map Entry.name).Nodup → l₁ = l₂
  | [], l₂, hp, _, _, _ => (hp.nil_eq).symm ▸ rfl
  | a :: t₁, [], hp, _, _, _ => absurd hp.symm (by simp)
  | a :: t₁, b :: t₂, hp, hs₁, hs₂, hn => by
    have hab : a = b := by
      rcases List.mem_cons.mp (hp.mem_iff.mp (List.mem_cons_self a t₁)) with h | h
      · exact h
      · rcases List.mem_cons.mp (hp.symm.mem_iff.mp (List.mem_cons_self b t₂)) with hb | hb
        · exact hb.symm
        · have h1 : nameLe a b := (List.pairwise_cons.mp hs₁).1 b hb
          have h2 : nameLe b a := (List.pairwise_cons.mp hs₂).1 a h
          have hname : a.name = b.name := stringDataInj (le_antisymm h1 h2)
          exfalso
          exact (List.nodup_cons.mp hn).1
            (hname ▸ List.mem_map_of_mem Entry.name hb)
    subst hab
    have ht : t₁ = t₂ :=
      eq_of_perm_of_pairwise_nameLe hp.cons_inv
        (List.pairwise_cons.mp hs₁).2 (List.pairwise_cons.mp hs₂).2
        (List.nodup_cons.mp hn).2
    rw [ht]

/-- Under distinct names, filtering after the sort agrees with sorting
the filtered listing: the code's `filter p (sorted items)` equals the
specification's independently sorted subset. -/
theorem filter_sortByName (p : Entry → Bool) {l : List Entry}
    (hn : (l.map Entry.name).Nodup) :
    (sortByName l).filter p = sortByName (l.filter p) := by
  apply eq_of_perm_of_pairwise_nameLe
  · exact ((perm_sortByName l).filter p).trans (perm_sortByName (l.filter p)).symm
  · exact (pairwise_sortByName l).filter p
  · exact pairwise_sortByName (l.filter p)
  · have hperm : List.Perm (((sortByName l).filter p).map Entry.name)
        ((l.filter p).map Entry.name) := (((perm_sortByName l).filter p).map _)
    have hsub : List.Sublist ((l.filter p).map Entry.name) (l.map Entry.name) :=
      (List.filter_sublist l).map _
    exact hperm.nodup_iff.mpr (hn.sublist hsub)

/-! ### Lemmas about the walker -/

theorem Entry.depth_le_depthList {c : Entry} :
    ∀ {cs : List Entry}, c ∈ cs → Entry.depth c ≤ Entry.depthList cs
  | _ :: cs, h => by
    rcases List.mem_cons.mp h with h | h
    · subst h; simp [Entry.depthList, le_max_iff]
    · simp only [Entry.depthList, le_max_iff]
      exact Or.inr (Entry.depth_le_depthList h)

/-- Fuel does not matter once it is at least the entry's depth: the
walk with any sufficient fuel is the walk itself. -/
theorem scanFuel_congr :
    ∀ (f g : Nat) (p : String) (e : Entry), Entry.depth e ≤ f →
      Entry.depth e ≤ g → scanFuel f p e = scanFuel g p e
  | f, g, p, .file n s, _, _ => by cases f <;> cases g <;> simp [scanFuel]
  | f, g, p, .dir n true cs, _, _ => by cases f <;> cases g <;> simp [scanFuel]
  | 0, g, p, .dir n false cs, hf, hg => by
    simp [Entry.depth] at hf
  | f + 1, 0, p, .dir n false cs, hf, hg => by
    simp [Entry.depth] at hg
  | f + 1, g + 1, p, .dir n false cs, hf, hg => by
    simp only [scanFuel]
    have hmap : ∀ c ∈ sortByName cs,
        (match c with
         | .file cn sz => (Node.file cn (p ++ "/" ++ cn) sz, ([] : List String))
         | .dir cn cd ccs => scanFuel f (p ++ "/" ++ cn) (.dir cn cd ccs)) =
        (match c with
         | .file cn sz => (Node.file cn (p ++ "/" ++ cn) sz, ([] : List String))
         | .dir cn cd ccs => scanFuel g (p ++ "/" ++ cn) (.dir cn cd ccs)) := by
      intro c hc
      match c with
      | .file cn sz => rfl
      | .dir cn cd ccs =>
        have hd : Entry.depth (.dir cn cd ccs) ≤ Entry.depthList cs :=
          Entry.depth_le_depthList (mem_sortByName.mp hc)
        have h1 : Entry.depth (.dir cn cd ccs) ≤ f := by
          have : Entry.depthList cs + 1 ≤ f + 1 := by
            simpa [Entry.depth] using hf
          omega
        have h2 : Entry.depth (.dir cn cd ccs) ≤ g := by
          have : Entry.depthList cs + 1 ≤ g + 1 := by
            simpa [Entry.depth] using hg
          omega
        exact scanFuel_congr f g _ _ h1 h2
    rw [List.map_congr_left hmap]

/-- Unfolding of the walk at a readable directory: each entry of the
sorted listing is scanned independently of its siblings (`scanChild`),
the children are their nodes in that order, and the warnings are their
warnings concatenated in that order. -/
theorem scan_dir_eq (p n : String) (cs : List Entry) :
    scanFuel (Entry.depth (.dir n false cs)) p (.dir n false cs) =
      (Node.folder n p ((sortByName cs).map fun c => (scanChild p c).1),
       (((sortByName cs).map fun c => (scanChild p c).2)).flatten) := by
  show scanFuel (Entry.depthList cs + 1) p (.dir n false cs) = _
  simp only [scanFuel]
  have hmap : ∀ c ∈ sortByName cs,
      (match c with
       | .file cn sz => (Node.file cn (p ++ "/" ++ cn) sz, ([] : List String))
       | .dir cn cd ccs => scanFuel (Entry.depthList cs) (p ++ "/" ++ cn) (.dir cn cd ccs)) =
      scanChild p c := by
    intro c hc
    match c with
    | .file cn sz => rfl
    | .dir cn cd ccs =>
      have hd : Entry.depth (.dir cn cd ccs) ≤ Entry.depthList cs :=
        Entry.depth_le_depthList (mem_sortByName.mp hc)
      exact scanFuel_congr _ _ _ _ hd le_rfl
  rw [List.map_congr_left hmap, List.map_map, List.map_map]
  rfl

/-! ### String helpers -/

theorem strAppend_assoc (a b c : String) : a ++ b ++ c = a ++ (b ++ c) := by
  apply stringDataInj
  simp

theorem strAppend_empty (a : String) : a ++ "" = a := by
  apply stringDataInj
  simp

theorem strFoldlAppend (l : List String) :
    ∀ a : String, List.foldl (fun r s => r ++ s) a l =
      a ++ List.foldl (fun r s => r ++ s) "" l := by
  induction l with
  | nil => intro a; exact (strAppend_empty a).symm
  | cons b l ih =>
    intro a
    show List.foldl (fun r s => r ++ s) (a ++ b) l =
      a ++ List.foldl (fun r s => r ++ s) ("" ++ b) l
    have hb : ("" : String) ++ b = b := rfl
    rw [hb, ih (a ++ b), ih b, strAppend_assoc]

theorem strJoin_cons (a : String) (l : List String) :
    String.join (a :: l) = a ++ String.join l := by
  show List.foldl (fun r s => r ++ s) a l = _
  exact strFoldlAppend l a

/-! ### An induction principle for built trees -/

/-- Structural induction over `Node` with the inductive hypothesis
available for every member of a folder's child list. -/
def Node.recMem {P : Node → Prop} (hfile : ∀ n p s, P (.file n p s))
    (hfolder : ∀ n p cs, (∀ c ∈ cs, P c) → P (.folder n p cs)) :
    ∀ node, P node
  | .file n p s => hfile n p s
  | .folder n p cs => hfolder n p cs fun c hc =>
      have : sizeOf c < sizeOf (Node.folder n p cs) := by
        have h := List.sizeOf_lt_of_mem hc
        simp only [Node.folder.sizeOf_spec]
        omega
      Node.recMem hfile hfolder c
termination_by node => sizeOf node

/-! ### Lemmas about the summarizer -/

theorem count_loop_spec :
    ∀ (cs : List Node) (acc : Nat × Nat × Nat),
      (∀ c ∈ cs, Node.isFolderB c = true →
        count_items c = (nFolders c, nFiles c, nBytes c)) →
      count_loop cs acc =
        (acc.1 + nFoldersList cs, acc.2.1 + nFilesList cs, acc.2.2 + nBytesList cs) := by
  intro cs
  induction cs with
  | nil => intro acc _; simp [count_loop, nFoldersList, nFilesList, nBytesList]
  | cons c rest ih =>
    intro acc hall
    cases c with
    | file cn cp sz =>
      show count_loop rest (acc.1, acc.2.1 + 1, acc.2.2 + sz) = _
      rw [ih _ fun d hd => hall d (List.mem_cons_of_mem _ hd)]
      simp only [nFoldersList, nFilesList, nBytesList, nFolders, nFiles, nBytes,
        Prod.ext_iff]
      omega
    | folder cn cp ccs =>
      show count_loop rest
          (acc.1 + (count_items (.folder cn cp ccs)).1,
           acc.2.1 + (count_items (.folder cn cp ccs)).2.1,
           acc.2.2 + (count_items (.folder cn cp ccs)).2.2) = _
      rw [hall _ (List.mem_cons_self _ rest) rfl]
      rw [ih _ fun d hd => hall d (List.mem_cons_of_mem _ hd)]
      simp only [nFoldersList, nFilesList, nBytesList, Prod.ext_iff]
      omega

theorem count_items_spec :
    ∀ node, Node.isFolderB node = true →
      count_items node = (nFolders node, nFiles node, nBytes node) := by
  intro node
  induction node using Node.recMem with
  | hfile n p s => intro h; cases h
  | hfolder n p cs ih =>
    intro _
    show count_loop cs (1, 0, 0) = _
    rw [count_loop_spec cs (1, 0, 0) ih]
    simp [nFolders, nFiles, nBytes]

/-! ### Lemmas about the digest -/

theorem structure_to_text_over (c : Node) {lvl md : Nat} (h : md < lvl) :
    structure_to_text c lvl md = strTimes lvl "  " ++ "...\n" := by
  rw [structure_to_text.eq_def]
  simp [h]

theorem children_to_text_over (cs : List Node) {lvl md : Nat} (h : md < lvl) :
    children_to_text cs lvl md =
      String.join (cs.map fun _ => strTimes lvl "  " ++ "...\n") := by
  induction cs with
  | nil => rfl
  | cons c rest ih =>
    show structure_to_text c lvl md ++ children_to_text rest lvl md = _
    rw [structure_to_text_over c h, ih, List.map_cons, strJoin_cons]

theorem scanFuel_file (f : Nat) (p n : String) (sz : Nat) :
    scanFuel f p (.file n sz) = (Node.folder n p [], [notDirWarn p]) := by
  cases f <;> rfl

theorem scanFuel_denied (f : Nat) (p n : String) (cs : List Entry) :
    scanFuel f p (.dir n true cs) = (Node.folder n p [], [permWarn p]) := by
  cases f <;> rfl

/-- The loop body of the walker over one listing entry, with explicit
fuel (compare `scanChild`, which runs it with full fuel). -/
def scanBody (fuel : Nat) (p : String) (c : Entry) : Node × List String :=
  match c with
  | .file cn sz => (Node.file cn (p ++ "/" ++ cn) sz, ([] : List String))
  | .dir cn cd ccs => scanFuel fuel (p ++ "/" ++ cn) (.dir cn cd ccs)

theorem scanFuel_dir_succ (f : Nat) (p n : String) (cs : List Entry) :
    scanFuel (f + 1) p (.dir n false cs) =
      (Node.folder n p (((sortByName cs).map (scanBody f p)).map Prod.fst),
       (((sortByName cs).map (scanBody f p)).map Prod.snd).flatten) := rfl

theorem scanFuel_name (f : Nat) (p : String) (e : Entry) :
    ((scanFuel f p e).1).name = e.name := by
  match e with
  | .file n s => rw [scanFuel_file]; rfl
  | .dir n true cs => rw [scanFuel_denied]; rfl
  | .dir n false cs => cases f <;> rfl

theorem scanBody_name (f : Nat) (p : String) (c : Entry) :
    ((scanBody f p c).1).name = c.name := by
  cases c with
  | file cn sz => rfl
  | dir cn cd ccs => exact scanFuel_name f _ _

/-- Every tree the walker builds is sorted by name at every level,
whatever the fuel. -/
theorem scanFuel_sorted (f : Nat) :
    ∀ (p : String) (e : Entry), SortedTree (scanFuel f p e).1 := by
  induction f with
  | zero =>
    intro p e
    match e with
    | .file n s => exact SortedTree.folder n p [] List.Pairwise.nil (by simp)
    | .dir n true cs => exact SortedTree.folder n p [] List.Pairwise.nil (by simp)
    | .dir n false cs => exact SortedTree.folder n p [] List.Pairwise.nil (by simp)
  | succ f ih =>
    intro p e
    match e with
    | .file n s => exact SortedTree.folder n p [] List.Pairwise.nil (by simp)
    | .dir n true cs => exact SortedTree.folder n p [] List.Pairwise.nil (by simp)
    | .dir n false cs =>
      rw [show (scanFuel (f + 1) p (.dir n false cs)).1 =
          Node.folder n p (((sortByName cs).map (scanBody f p)).map Prod.fst) from rfl]
      rw [List.map_map]
      apply SortedTree.folder
      · rw [List.pairwise_map]
        refine (pairwise_sortByName cs).imp ?_
        intro a b hab
        show ((scanBody f p a).1).name.data ≤ ((scanBody f p b).1).name.data
        rw [scanBody_name, scanBody_name]
        exact hab
      · intro nd hnd
        rcases List.mem_map.mp hnd with ⟨c, hc, rfl⟩
        cases c with
        | file cn sz => exact SortedTree.file cn _ sz
        | dir cn cd ccs => exact ih _ _

/-! ### The claims -/

/-- The scenario filesystem of claim C3:
`root/{a.txt (10 bytes), sub/{b.txt (20 bytes)}}`. -/
def scenarioEntry : Entry :=
  .dir "root" false [.file "a.txt" 10, .dir "sub" false [.file "b.txt" 20]]

/-- The tree the walker builds for `scenarioEntry` at `/tmp/root`:
folder `root` with exactly two children, file `a.txt` of size 10 and
folder `sub` with the single child file `b.txt` of size 20. -/
def scenarioNode : Node :=
  .folder "root" "/tmp/root"
    [.file "a.txt" "/tmp/root/a.txt" 10,
     .folder "sub" "/tmp/root/sub" [.file "b.txt" "/tmp/root/sub/b.txt" 20]]

/-- C3: on the scenario tree, `scan` yields folder `root` with exactly
the two children described (and no warnings), and `count_items` on that
tree yields `(2, 2, 30)`; in general `count_items` on a folder-rooted
tree counts the root folder as one, every descendant folder as one
more, and every descendant file as one file plus its size. -/
theorem c3_scan_summary :
    get_folder_structure "/tmp/root" (some scenarioEntry) = .ok (scenarioNode, [])
  ∧ count_items scenarioNode = (2, 2, 30)
  ∧ ∀ (n p : String) (cs : List Node),
      count_items (Node.folder n p cs) =
        (nFolders (Node.folder n p cs), nFiles (Node.folder n p cs),
         nBytes (Node.folder n p cs)) :=
  ⟨rfl, rfl, fun n p cs => count_items_spec (Node.folder n p cs) rfl⟩

/-- C8: scanning a nonexistent path fails with the not-found error
before any node is built or any warning printed — the result is the
raised `FileNotFoundError` and nothing else. -/
theorem c8_scan_not_found : ∀ p : String,
    get_folder_structure p none = .error ("路径不存在: " ++ p)
  ∧ ∀ r : Node × List String, get_folder_structure p none ≠ .ok r :=
  fun _ => ⟨rfl, fun _ h => Except.noConfusion h⟩

/-- C10: a path that exists but is a regular file does not make the
walker raise: the `NotADirectoryError` from `os.listdir` is caught by
the generic handler, a warning is printed, and the call returns a node
tagged `folder` with the file's basename, its path and no children. -/
theorem c10_file_path_scan : ∀ (p n : String) (sz : Nat),
    get_folder_structure p (some (Entry.file n sz)) =
      .ok (Node.folder n p [], [notDirWarn p]) :=
  fun _ _ _ => rfl

/-- C2: a directory that denies listing comes back as a node with the
children enumerated before the denial (none — `os.listdir` fails before
the loop starts) together with the permission warning, not as a raised
exception; a readable directory's scan handles every entry of its
listing independently (so the siblings of a denied directory are still
fully scanned, and the denied sibling itself contributes the partial
node and the warning). -/
theorem c2_permission_partial :
    (∀ (p n : String) (cs : List Entry),
        get_folder_structure p (some (Entry.dir n true cs)) =
          .ok (Node.folder n p [], [permWarn p]))
  ∧ (∀ (p n : String) (cs : List Entry),
        get_folder_structure p (some (Entry.dir n false cs)) =
          .ok (Node.folder n p ((sortByName cs).map fun c => (scanChild p c).1),
               (((sortByName cs).map fun c => (scanChild p c).2)).flatten))
  ∧ (∀ (p cn : String) (ccs : List Entry),
        scanChild p (Entry.dir cn true ccs) =
          (Node.folder cn (p ++ "/" ++ cn) [], [permWarn (p ++ "/" ++ cn)])) := by
  refine ⟨fun p n cs => ?_, fun p n cs => ?_, fun p cn ccs => ?_⟩
  · show Except.ok (scanFuel (Entry.depth (.dir n true cs)) p (.dir n true cs)) = _
    rw [scanFuel_denied]
  · show Except.ok (scanFuel (Entry.depth (.dir n false cs)) p (.dir n false cs)) = _
    rw [scan_dir_eq]
  · show scanFuel (Entry.depth (.dir cn true ccs)) _ _ = _
    rw [scanFuel_denied]

/-- The filesystem used to exhibit the walker/renderer ordering
asymmetry: a file named `a.txt` and a folder named `zdir` in one
directory. -/
def mixEntry : Entry := .dir "mix" false [.file "a.txt" 1, .dir "zdir" false []]

/-- C9: every tree the walker returns lists each node's children in one
ascending name order with files and folders mixed (codepoint order on
names), and the walker does not group folders first: on `mixEntry` it
returns the file `a.txt` before the folder `zdir`, while the renderer
prints the folder `zdir` first. -/
theorem c9_walker_sort_order :
    (∀ (p : String) (e : Entry) (node : Node) (warns : List String),
        get_folder_structure p (some e) = .ok (node, warns) → SortedTree node)
  ∧ get_folder_structure "/mix" (some mixEntry) =
      .ok (.folder "mix" "/mix"
            [.file "a.txt" "/mix/a.txt" 1, .folder "zdir" "/mix/zdir" []], [])
  ∧ print_tree false "/mix" "" mixEntry = ["├── 📁 zdir/", "└── 📄 a.txt"] := by
  refine ⟨fun p e node warns h => ?_, rfl, rfl⟩
  have h2 : scanFuel (Entry.depth e) p e = (node, warns) := by
    simpa [get_folder_structure] using h
  have h3 := scanFuel_sorted (Entry.depth e) p e
  rw [h2] at h3
  exact h3

/-- A depth-1 tree whose only immediate child is a file: the digest at
`maxDepth = 0` still emits a truncation marker for it. -/
def c1Tree : Node := .folder "r" "/r" [.file "a.txt" "/r/a.txt" 10]

/-- C1, counterexample to the claim as stated: on a tree of depth 1
whose root has one file child and no folder child, the digest at
`max_depth = 0` emits one truncation marker line, not one marker per
immediate child folder (which would be none) — the source truncates
every child at the depth limit, files included. -/
theorem c1_counterexample :
    (c1Tree.children).length = 1
  ∧ (textLines (structure_to_text c1Tree 0 0)).countP isMarkerLine = 1
  ∧ childFolderCount c1Tree = 0 :=
  ⟨rfl, rfl, rfl⟩

/-- C1 as amended: on every tree of depth at least 1, the digest at
`max_depth = 0` is the root folder's line followed by exactly one
truncation marker line `"  ...\n"` per immediate child — folder or
file — with nothing of any grandchild or deeper node emitted (the
output does not depend on the children beyond their number). -/
theorem c1_digest_truncation : ∀ (name p : String) (cs : List Node),
    cs ≠ [] →
    structure_to_text (Node.folder name p cs) 0 0 =
      "📁 " ++ name ++ "/\n" ++ String.join (cs.map fun _ => "  ...\n") := by
  intro name p cs h
  show "📁 " ++ name ++ "/\n" ++ children_to_text cs 1 0 = _
  rw [children_to_text_over cs (by omega)]
  rfl

/-- Witness for C1's amended theorem at a concrete depth-1 tree. -/
theorem c1_digest_truncation_witness :
    ([Node.file "a.txt" "/r/a.txt" 10] ≠ ([] : List Node))
  ∧ structure_to_text (Node.folder "r" "/r" [Node.file "a.txt" "/r/a.txt" 10]) 0 0 =
      "📁 " ++ "r" ++ "/\n" ++
        String.join ([Node.file "a.txt" "/r/a.txt" 10].map fun _ => "  ...\n") :=
  ⟨by simp, c1_digest_truncation "r" "/r" [Node.file "a.txt" "/r/a.txt" 10] (by simp)⟩

/-- C4: the size formatter's sample values, and the GB ceiling: any
count of 1024 GB (`1024 ^ 4` bytes) or more is still rendered with one
decimal place, a space and the unit `GB` (never TB or beyond), the
number being the count divided by `1024 ^ 3`. -/
theorem c4_format_size :
    format_size 0 = "0 B"
  ∧ format_size 1024 = "1.0 KB"
  ∧ format_size 1536 = "1.5 KB"
  ∧ format_size 1073741824 = "1.0 GB"
  ∧ ∀ n : Nat, 1024 ^ 4 ≤ n →
      format_size n = formatFix1 n (1024 ^ 3) ++ " GB" := by
  refine ⟨rfl, rfl, rfl, rfl, fun n h => ?_⟩
  have c1 : 1024 ^ (0 + 1) ≤ n := le_trans (by norm_num) h
  have c2 : 1024 ^ (1 + 1) ≤ n := le_trans (by norm_num) h
  have c3 : 1024 ^ (2 + 1) ≤ n := le_trans (by norm_num) h
  have h0 : ¬n = 0 := by
    intro h0
    rw [h0] at h
    norm_num at h
  have hloop : format_size_loop n (size_names.length - 1) 0 = 3 := by
    show format_size_loop n 3 0 = 3
    show (if 1024 ^ (0 + 1) ≤ n ∧ 0 < size_names.length - 1 then
        format_size_loop n 2 (0 + 1) else 0) = 3
    rw [if_pos ⟨c1, by norm_num [size_names]⟩]
    show (if 1024 ^ (1 + 1) ≤ n ∧ 1 < size_names.length - 1 then
        format_size_loop n 1 (1 + 1) else 1) = 3
    rw [if_pos ⟨c2, by norm_num [size_names]⟩]
    show (if 1024 ^ (2 + 1) ≤ n ∧ 2 < size_names.length - 1 then
        format_size_loop n 0 (2 + 1) else 2) = 3
    rw [if_pos ⟨c3, by norm_num [size_names]⟩]
    rfl
  show (if n = 0 then "0 B" else
      formatFix1 n (1024 ^ format_size_loop n (size_names.length - 1) 0) ++ " " ++
        size_names.getD (format_size_loop n (size_names.length - 1) 0) "") = _
  rw [if_neg h0, hloop, strAppend_assoc]
  rfl

/-- Witness for C4's GB-ceiling clause at exactly 1024 GB. -/
theorem c4_format_size_witness :
    1024 ^ 4 ≤ 1024 ^ 4
  ∧ format_size (1024 ^ 4) = formatFix1 (1024 ^ 4) (1024 ^ 3) ++ " GB"
  ∧ format_size (1024 ^ 4) = "1024.0 GB" :=
  ⟨le_refl _, c4_format_size.2.2.2.2 (1024 ^ 4) (le_refl _), rfl⟩

theorem jsonToNodeList_nodesToJson (cs : List Node)
    (ih : ∀ c ∈ cs, jsonToNode (nodeToJson c) = some c) :
    jsonToNodeList (nodesToJson cs) = some cs := by
  induction cs with
  | nil => rfl
  | cons c rest ihr =>
    show jsonToNodeList (nodeToJson c :: nodesToJson rest) = _
    rw [jsonToNodeList, ih c (List.mem_cons_self _ _),
      ihr fun d hd => ih d (List.mem_cons_of_mem _ hd)]

theorem jsonToNode_nodeToJson : ∀ node : Node,
    jsonToNode (nodeToJson node) = some node := by
  intro node
  induction node using Node.recMem with
  | hfile n p s => rfl
  | hfolder n p cs ih =>
    show jsonToNode (.obj [("name", .str n), ("type", .str "folder"),
      ("path", .str p), ("children", .arr (nodesToJson cs))]) = _
    rw [jsonToNode, jsonToNodeList_nodesToJson cs ih]

/-- C5: the persistence round trip. Reading the written document back
recovers exactly the scanned tree — the same names, type tags, paths
and sizes, with child order preserved at every level; in particular it
holds for the tree of any successful `get_folder_structure` call. -/
theorem c5_persistence_roundtrip :
    (∀ node : Node, jsonToNode (nodeToJson node) = some node)
  ∧ ∀ (p : String) (e : Entry) (node : Node) (warns : List String),
      get_folder_structure p (some e) = .ok (node, warns) →
      jsonToNode (nodeToJson node) = some node :=
  ⟨jsonToNode_nodeToJson, fun _ _ node _ _ => jsonToNode_nodeToJson node⟩

/-- Reading `analyze_with_ai` as its `try`/`except` outcome. -/
theorem analyze_with_ai_eq (r : PostOutcome) :
    analyze_with_ai r =
      match analyze_request r with
      | .ok answer => answer
      | .error (.requestExc m) => .str ("❌ API调用失败: " ++ m)
      | .error (.genericExc m) => .str ("❌ 处理响应时出错: " ++ m) := rfl

/-- C7: every failure of the remote call is returned as a formatted
error string, never propagated: a raised request error (network
failure, timeout), a non-success HTTP status (400–599, raised by
`raise_for_status`), an undecodable body, and a body whose shape lacks
`choices[0].message.content` all yield an error string; on success the
first choice's message content is returned. `analyze_with_ai` is a
total function into answers — no exception escapes it. -/
theorem c7_remote_error_as_data : ∀ r : PostOutcome,
    (∀ m : String, r = .requestError m →
        analyze_with_ai r = .str ("❌ API调用失败: " ++ m))
  ∧ (∀ (st : Nat) (body : Option Json), r = .response st body →
        400 ≤ st → st < 600 →
        analyze_with_ai r = .str ("❌ API调用失败: HTTPError: " ++ toString st))
  ∧ (∀ st : Nat, r = .response st none → ¬(400 ≤ st ∧ st < 600) →
        analyze_with_ai r = .str ("❌ API调用失败: JSONDecodeError"))
  ∧ (∀ (st : Nat) (j : Json) (e : PyExc), r = .response st (some j) →
        ¬(400 ≤ st ∧ st < 600) → extract_answer j = .error e →
        ∃ m : String, analyze_with_ai r = .str ("❌ API调用失败: " ++ m)
          ∨ analyze_with_ai r = .str ("❌ 处理响应时出错: " ++ m))
  ∧ (∀ (st : Nat) (j a : Json), r = .response st (some j) →
        ¬(400 ≤ st ∧ st < 600) → extract_answer j = .ok a →
        analyze_with_ai r = a) := by
  intro r
  refine ⟨?_, ?_, ?_, ?_, ?_⟩
  · intro m h
    subst h
    rfl
  · intro st body h h1 h2
    subst h
    have hreq : analyze_request (.response st body) =
        .error (.requestExc ("HTTPError: " ++ toString st)) := by
      simp only [analyze_request]
      rw [if_pos ⟨h1, h2⟩]
    rw [analyze_with_ai_eq, hreq]
    rfl
  · intro st h hne
    subst h
    have hreq : analyze_request (.response st none) =
        .error (.requestExc "JSONDecodeError") := by
      simp only [analyze_request]
      rw [if_neg hne]
    rw [analyze_with_ai_eq, hreq]
    rfl
  · intro st j e h hne hext
    subst h
    have hreq : analyze_request (.response st (some j)) = .error e := by
      simp only [analyze_request]
      rw [if_neg hne]
      exact hext
    cases e with
    | requestExc m =>
      exact ⟨m, Or.inl (by rw [analyze_with_ai_eq, hreq])⟩
    | genericExc m =>
      exact ⟨m, Or.inr (by rw [analyze_with_ai_eq, hreq])⟩
  · intro st j a h hne hext
    subst h
    have hreq : analyze_request (.response st (some j)) = .ok a := by
      simp only [analyze_request]
      rw [if_neg hne]
      exact hext
    rw [analyze_with_ai_eq, hreq]

/-- The specification renderer run with enough fuel for its argument. -/
def render_spec (show_size : Bool) (path pre : String) (e : Entry) : List String :=
  render_spec_fuel show_size (Entry.depth e) path pre e

theorem snd_mem_of_mem_enum {α : Type} {x : Nat × α} {l : List α}
    (h : x ∈ l.enum) : x.2 ∈ l := by
  have h2 : l[x.1]? = some x.2 := List.mem_enum_iff_getElem?.mp h
  exact List.getElem?_mem h2

theorem mem_of_mem_parts {c : Entry} {cs : List Entry}
    (h : c ∈ sortByName (cs.filter Entry.isDir) ++ sortByName (cs.filter Entry.isFile)) :
    c ∈ cs := by
  rcases List.mem_append.mp h with h | h <;>
    exact (List.mem_filter.mp (mem_sortByName.mp h)).1

/-- With distinct names in every listing, the renderer's
filter-after-sort agrees with the specification's sort-each-subset, at
every fuel. -/
theorem print_tree_fuel_eq_render_spec_fuel (ss : Bool) :
    ∀ (fuel : Nat) (path pre : String) (e : Entry), EntryWF e →
      print_tree_fuel ss fuel path pre e = render_spec_fuel ss fuel path pre e := by
  intro fuel
  induction fuel with
  | zero =>
    intro path pre e _
    cases e with
    | file n s => rfl
    | dir n d cs => cases d <;> rfl
  | succ f ih =>
    intro path pre e hwf
    cases e with
    | file n s => rfl
    | dir n d cs =>
      cases d with
      | true => rfl
      | false =>
        cases hwf with
        | dir n d cs hnodup hch =>
          simp only [print_tree_fuel, render_spec_fuel]
          rw [filter_sortByName Entry.isDir hnodup,
            filter_sortByName Entry.isFile hnodup]
          apply congrArg List.flatten
          apply List.map_congr_left
          intro ia hia
          rcases ia with ⟨i, c⟩
          cases c with
          | file cn sz => rfl
          | dir cn cd ccs =>
            have hc : Entry.dir cn cd ccs ∈ cs :=
              mem_of_mem_parts (snd_mem_of_mem_enum hia)
            have hwc : EntryWF (Entry.dir cn cd ccs) := hch _ hc
            simp only [ih _ _ _ hwc]

/-- C6: for every directory listing with distinct entry names (as a
real filesystem guarantees), the renderer's output coincides, line for
line, with the specification renderer `render_spec_fuel`, which
partitions the listing into a folders subset and a files subset, sorts
each independently by name, prints all folders before all files, uses
`└── ` for the last sibling and `├── ` otherwise, and grows the
descendant prefix by `│   ` under a non-last sibling and four spaces
under a last one. -/
theorem c6_renderer_partition :
    ∀ (show_size : Bool) (path pre : String) (e : Entry), EntryWF e →
      print_tree show_size path pre e = render_spec show_size path pre e :=
  fun ss path pre e hwf =>
    print_tree_fuel_eq_render_spec_fuel ss (Entry.depth e) path pre e hwf

/-- Witness for C6 on the concrete listing `mixEntry` (a file `a.txt`
and a folder `zdir`): the folder is printed before the file. -/
theorem c6_renderer_partition_witness :
    EntryWF mixEntry
  ∧ print_tree false "/mix" "" mixEntry = render_spec false "/mix" "" mixEntry
  ∧ render_spec false "/mix" "" mixEntry = ["├── 📁 zdir/", "└── 📄 a.txt"] := by
  have wmix : EntryWF mixEntry := by
    refine EntryWF.dir _ _ _ (by decide) ?_
    intro c hc
    rcases List.mem_cons.mp hc with rfl | hc
    · exact EntryWF.file _ _
    rcases List.mem_cons.mp hc with rfl | hc
    · exact EntryWF.dir _ _ _ (by decide) (fun c hc => absurd hc (List.not_mem_nil c))
    · exact absurd hc (List.not_mem_nil c)
  exact ⟨wmix, c6_renderer_partition false "/mix" "" mixEntry wmix, rfl⟩

end FileAgent
